import Mathlib

/-!
Shallow embedding of the NeuralLog python-sdk core
(`neurallog_sdk/http/http_client.py`, `neurallog_sdk/ai_logger.py`,
`neurallog_sdk/neurallog.py`, `neurallog_sdk/models/*`) and proofs of the
specification claims about it.

Conventions of the embedding:
* Python dicts are association lists `List (String × α)` with the
  insertion-order / key-uniqueness semantics of `dict.update` modelled
  explicitly (`dictInsert`, `dictUpdate`).
* The network is an oracle: for the HTTP client an `attempt` function giving
  the outcome of each underlying `session.request` (indexed by the 0-based
  attempt number), for the logger a `net` oracle giving the outcome of each
  `http_client.send` call (indexed by the number of requests already issued).
* `uuid4` / `datetime.now` metadata of `LogEntry` is not observed by any
  claim and is left out of the entry record.
* Time is not executed: `time.sleep(backoff)` is recorded in a trace of
  applied backoff delays (in milliseconds, before the `/1000` conversion).
-/

namespace NeuralLogSDK

/-- `LogLevel` from `models/log_level.py`: a `str` enum with five members. -/
inductive LogLevel where
  | DEBUG | INFO | WARNING | ERROR | FATAL
  deriving DecidableEq, Repr

/-- The `.value` of each `LogLevel` member. -/
def LogLevel.value : LogLevel → String
  | .DEBUG => "debug"
  | .INFO => "info"
  | .WARNING => "warning"
  | .ERROR => "error"
  | .FATAL => "fatal"

/-- A Python dict with string keys, as an insertion-ordered association list
with unique keys maintained by `dictInsert`. -/
abbrev Dict (α : Type) := List (String × α)

/-- Keys of a dict, in order. -/
def dictKeys {α : Type} (d : Dict α) : List String := d.map Prod.fst

/-- First-match lookup, the observable semantics of `d[k]` on a dict whose
keys are unique. -/
def dictLookup {α : Type} (k : String) : Dict α → Option α
  | [] => none
  | (k', v) :: rest => if k = k' then some v else dictLookup k rest

/-- Semantics of setting one key in a Python dict: if the key is present its
value is replaced in place (insertion order kept), otherwise the pair is
appended at the end. -/
def dictInsert {α : Type} : Dict α → String → α → Dict α
  | [], k, v => [(k, v)]
  | (k', v') :: rest, k, v =>
    if k' = k then (k, v) :: rest else (k', v') :: dictInsert rest k v

/-- Semantics of `d1.update(d2)`: each pair of `d2` is set in order. -/
def dictUpdate {α : Type} (d other : Dict α) : Dict α :=
  other.foldl (fun acc p => dictInsert acc p.1 p.2) d

section HttpClient

/-!
`HttpClient.send` (`http/http_client.py`, lines 41–87):

```python
retries = 0
last_exception = None
while retries <= self.config.max_retries:
    try:
        response = self.session.request(...)
        response.raise_for_status()
        if response.status_code == 204:
            return {}
        return response.json()
    except requests.exceptions.RequestException as e:
        last_exception = e
        retries += 1
        if retries <= self.config.max_retries:
            backoff = self.config.retry_backoff_ms * (2 ** (retries - 1)) / 1000
            time.sleep(backoff)
raise last_exception
```
-/

/-- Outcome of one underlying `session.request` call: either a network-level
`RequestException`, or an HTTP response with a status code and a body. -/
inductive NetResult where
  | netErr (msg : String)
  | resp (status : Nat) (body : String)
  deriving DecidableEq, Repr

/-- A `requests.exceptions.RequestException` as observed by the `except`
clause: either the network-level error or the `HTTPError` raised by
`raise_for_status()` on a 4xx/5xx status. -/
inductive AttemptErr where
  | network (msg : String)
  | httpStatus (status : Nat)
  deriving DecidableEq, Repr

/-- Successful result of `send`: `{}` on status 204, otherwise the parsed
response body. -/
inductive SendResult where
  | emptyDict
  | json (body : String)
  deriving DecidableEq, Repr

/-- What `send` can raise. The code raises the raw `last_exception`
(`raw`); the constructor `deliveryFailed` is the wrapper the specification
describes, present in the error type so that the two behaviours are
distinguishable. `raisedNone` models `raise None` (unreachable). -/
inductive SendError where
  | raw (e : AttemptErr)
  | deliveryFailed (e : AttemptErr)
  | raisedNone
  deriving DecidableEq, Repr

/-- Whether a `send` result is the spec's `DeliveryFailed` wrapper. -/
def SendError.isDeliveryFailed : SendError → Bool
  | .deliveryFailed _ => true
  | _ => false

/-- The body of the `try` block: `raise_for_status()` raises for any status
≥ 400, a 204 returns `{}`, anything else returns the parsed body. -/
def tryAttempt (r : NetResult) : Except AttemptErr SendResult :=
  match r with
  | .netErr msg => .error (.network msg)
  | .resp status body =>
    if 400 ≤ status then .error (.httpStatus status)
    else if status = 204 then .ok .emptyDict
    else .ok (.json body)

/-- Observable outcome of a whole `send` call: the returned value or raised
error, the number of underlying requests issued, and the backoff delays
slept (in ms), in order. -/
structure SendOutcome where
  result : Except SendError SendResult
  requests : Nat
  backoffs : List Nat
  deriving Repr

/-- `raise last_exception` at loop exit. -/
def raiseLast (last : Option AttemptErr) : Except SendError SendResult :=
  match last with
  | some e => .error (.raw e)
  | none => .error .raisedNone

/-- One more request was issued before `rest`, preceded by sleeping
`backoff`. -/
def afterRetry (backoff : Nat) (rest : SendOutcome) : SendOutcome :=
  ⟨rest.result, rest.requests + 1, backoff :: rest.backoffs⟩

/-- The retry loop of `HttpClient.send`, unrolled on fuel. `retries` is the
loop variable (also the 0-based index of the current attempt); the fuel is
`max_retries + 1 - retries` at every call, so the `0` case is never reached
from `send`. On failure, `retries` is incremented and the loop continues
(after sleeping `retry_backoff_ms * 2^(retries-1)`) iff `retries ≤
max_retries`, else falls through to `raise last_exception`. -/
def sendGo (maxRetries retryBackoffMs : Nat) (attempt : Nat → NetResult) :
    Nat → Nat → Option AttemptErr → SendOutcome
  | 0, _, last => ⟨raiseLast last, 0, []⟩
  | fuel + 1, retries, _ =>
    match tryAttempt (attempt retries) with
    | .ok r => ⟨.ok r, 1, []⟩
    | .error e =>
      if retries + 1 ≤ maxRetries then
        afterRetry (retryBackoffMs * 2 ^ (retries + 1 - 1))
          (sendGo maxRetries retryBackoffMs attempt fuel (retries + 1) (some e))
      else
        ⟨raiseLast (some e), 1, []⟩

/-- `HttpClient.send`: enter the loop with `retries = 0`,
`last_exception = None`. -/
def httpSend (maxRetries retryBackoffMs : Nat) (attempt : Nat → NetResult) :
    SendOutcome :=
  sendGo maxRetries retryBackoffMs attempt (maxRetries + 1) 0 none

/-- An attempt that fails: its `try` body raises a `RequestException`. -/
def attemptFails (r : NetResult) : Prop := (tryAttempt r).isOk = false

instance (r : NetResult) : Decidable (attemptFails r) := by
  unfold attemptFails; infer_instance

/-- The error carried by a failing attempt. -/
def attemptError (r : NetResult) : AttemptErr :=
  match tryAttempt r with
  | .error e => e
  | .ok _ => .network ""


/-- Whether the outcome of a `send` is the spec's `DeliveryFailed` wrapper
error. -/
def SendOutcome.failedWrapped (o : SendOutcome) : Bool :=
  match o.result with
  | .error e => e.isDeliveryFailed
  | .ok _ => false


end HttpClient

section Logger

/-- `ExceptionInfo` from `models/log_entry.py`: type name, message, stack
trace and an optional recursive `__cause__`. -/
inductive ExceptionInfo where
  | mk (type message stackTrace : String) (innerException : Option ExceptionInfo)

/-- `LogEntry` from `models/log_entry.py`. The `id` (`uuid4`) and
`timestamp` (`datetime.now`) fields are environment-supplied metadata not
observed by any claim and are left out. `data` values are an arbitrary
type `α`. -/
structure LogEntry (α : Type) where
  level : LogLevel
  message : String
  data : Dict α
  exception : Option ExceptionInfo

/-- `NeuralLogConfig` from `models/neurallog_config.py` (`nspace` models the
`namespace` field, which is a reserved word here). -/
structure NeuralLogConfig where
  server_url : String := "http://localhost:3030"
  nspace : String := "default"
  api_key : Option String := none
  async_enabled : Bool := true
  batch_size : Nat := 100
  batch_interval_ms : Nat := 5000
  max_retries : Nat := 3
  retry_backoff_ms : Nat := 1000
  debug_enabled : Bool := false
  timeout_ms : Nat := 30000

/-- Body of a POST issued by the logger: one serialized entry
(`json.dumps(log_entry.to_dict())`) or a serialized list of entries. -/
inductive Body (α : Type) where
  | single (entry : LogEntry α)
  | batch (entries : List (LogEntry α))

/-- One `http_client.send` invocation made by the logger. -/
structure SendCall (α : Type) where
  method : String
  url : String
  body : Body α

/-- Outcome oracle for the logger's `http_client.send` calls, indexed by the
number of requests the logger has already issued: `.error` means the call
raised. -/
abbrev Net := Nat → Except AttemptErr Unit

/-- `AILogger` from `ai_logger.py`: name, configuration, instance context,
the pending batch queue, and the trace of HTTP requests issued so far.
(The batch timer and lock are concurrency machinery outside this
single-threaded embedding.) -/
structure AILogger (α : Type) where
  log_name : String
  config : NeuralLogConfig
  context : Dict α
  batch_queue : List (LogEntry α)
  sends : List (SendCall α)

/-- `AILogger.__init__`: empty context, empty queue, no requests issued. -/
def AILogger.init (α : Type) (log_name : String) (config : NeuralLogConfig) :
    AILogger α :=
  ⟨log_name, config, [], [], []⟩

/-- `AILogger._get_log_url`. -/
def AILogger.get_log_url {α : Type} (self : AILogger α) : String :=
  if self.config.nspace ≠ "" ∧ self.config.nspace ≠ "default" then
    self.config.server_url ++ "/" ++ self.config.nspace ++ "/logs/" ++ self.log_name
  else
    self.config.server_url ++ "/logs/" ++ self.log_name

/-- `AILogger._get_batch_url`. -/
def AILogger.get_batch_url {α : Type} (self : AILogger α) : String :=
  if self.config.nspace ≠ "" ∧ self.config.nspace ≠ "default" then
    self.config.server_url ++ "/" ++ self.config.nspace ++ "/logs/" ++
      self.log_name ++ "/batch"
  else
    self.config.server_url ++ "/logs/" ++ self.log_name ++ "/batch"

/-- First half of the context/data merge in `AILogger.log` (lines
101–104): `merged_data = {}`, then `merged_data.update(self.context)` when
the context is truthy (non-empty). -/
def mergeBase {α : Type} (context : Dict α) : Dict α :=
  if context.isEmpty then [] else dictUpdate [] context

/-- The context/data merge in `AILogger.log` (lines 101–106): start from
`{}`, `update` with the instance context if truthy, then `update` with the
caller-supplied data if truthy (`None` and `{}` are both falsy). -/
def mergeData {α : Type} : Dict α → Option (Dict α) → Dict α
  | context, none => mergeBase context
  | context, some d =>
    if d.isEmpty then mergeBase context else dictUpdate (mergeBase context) d

/-- The `try:/except Exception:` around the logger's sends: whether the
`http_client.send` call returned or raised, execution continues with the
same state (the `except` body only prints when debug is enabled). -/
def swallowing {α : Type} (result : Except AttemptErr Unit) (st : α) : α :=
  match result with
  | .ok _ => st
  | .error _ => st

/-- `AILogger._send_log_entry`: issue a single-entry POST; a raised
exception from `http_client.send` is caught and swallowed (an optional
debug print is the only effect). -/
def AILogger.send_log_entry {α : Type} (self : AILogger α) (net : Net)
    (entry : LogEntry α) : AILogger α :=
  swallowing (net self.sends.length)
    { self with sends := self.sends ++ [⟨"POST", self.get_log_url, .single entry⟩] }

/-- `AILogger._send_batch`: under the batch lock, return if the queue is
empty; otherwise pop entries (oldest first) while the queue is non-empty
and fewer than `batch_size` have been taken; return if none were taken;
POST them as one batch, swallowing any exception. -/
def AILogger.send_batch {α : Type} (self : AILogger α) (net : Net) :
    AILogger α :=
  if self.batch_queue.isEmpty then self
  else
    let entries := self.batch_queue.take self.config.batch_size
    if entries.isEmpty then self
    else
      swallowing (net self.sends.length)
        { self with
          batch_queue := self.batch_queue.drop self.config.batch_size,
          sends := self.sends ++ [⟨"POST", self.get_batch_url, .batch entries⟩] }

/-- `AILogger._enqueue_log_entry`: append to the queue; if the queue size
has reached `batch_size`, send a batch immediately. -/
def AILogger.enqueue_log_entry {α : Type} (self : AILogger α) (net : Net)
    (entry : LogEntry α) : AILogger α :=
  let queued := { self with batch_queue := self.batch_queue ++ [entry] }
  if self.config.batch_size ≤ queued.batch_queue.length then
    queued.send_batch net
  else
    queued

/-- Errors raised synchronously by the facade (`ValueError` in the code,
InvalidArgument in the spec's taxonomy). -/
inductive LogError where
  | invalidArgument (msg : String)
  deriving DecidableEq, Repr

/-- `AILogger.log`: reject an empty message; merge context and data; build
the entry; route to the batcher when async with `batch_size > 1`, else send
immediately. -/
def AILogger.log {α : Type} (self : AILogger α) (net : Net) (level : LogLevel)
    (message : String) (data : Option (Dict α))
    (exception : Option ExceptionInfo) : Except LogError (AILogger α) :=
  if message = "" then .error (.invalidArgument "Message cannot be empty")
  else
    let entry : LogEntry α := ⟨level, message, mergeData self.context data, exception⟩
    if self.config.async_enabled then
      if 1 < self.config.batch_size then .ok (self.enqueue_log_entry net entry)
      else .ok (self.send_log_entry net entry)
    else .ok (self.send_log_entry net entry)

/-- `AILogger.debug`. -/
def AILogger.debug {α : Type} (self : AILogger α) (net : Net) (message : String)
    (data : Option (Dict α)) (exception : Option ExceptionInfo) :
    Except LogError (AILogger α) :=
  self.log net .DEBUG message data exception

/-- `AILogger.info`. -/
def AILogger.info {α : Type} (self : AILogger α) (net : Net) (message : String)
    (data : Option (Dict α)) (exception : Option ExceptionInfo) :
    Except LogError (AILogger α) :=
  self.log net .INFO message data exception

/-- `AILogger.warning`. -/
def AILogger.warning {α : Type} (self : AILogger α) (net : Net) (message : String)
    (data : Option (Dict α)) (exception : Option ExceptionInfo) :
    Except LogError (AILogger α) :=
  self.log net .WARNING message data exception

/-- `AILogger.error`. -/
def AILogger.error {α : Type} (self : AILogger α) (net : Net) (message : String)
    (data : Option (Dict α)) (exception : Option ExceptionInfo) :
    Except LogError (AILogger α) :=
  self.log net .ERROR message data exception

/-- `AILogger.fatal`. -/
def AILogger.fatal {α : Type} (self : AILogger α) (net : Net) (message : String)
    (data : Option (Dict α)) (exception : Option ExceptionInfo) :
    Except LogError (AILogger α) :=
  self.log net .FATAL message data exception

/-- The value-level copy `context.copy()` makes of a dict (contents equal;
the aliasing consequences are modelled separately on `Store`). -/
def dictCopy {α : Type} (d : Dict α) : Dict α := d

/-- `AILogger.set_context`: reject `None`, else store a copy of the
argument. -/
def AILogger.set_context {α : Type} (self : AILogger α)
    (context : Option (Dict α)) : Except LogError (AILogger α) :=
  match context with
  | none => .error (.invalidArgument "Context cannot be None")
  | some c => .ok { self with context := dictCopy c }

/-- `AILogger.flush`: drain a batch only when async with `batch_size > 1`. -/
def AILogger.flush {α : Type} (self : AILogger α) (net : Net) : AILogger α :=
  if self.config.async_enabled ∧ 1 < self.config.batch_size then
    self.send_batch net
  else
    self

end Logger

section Registry

/-- The class-level state of `NeuralLog` (`neurallog.py`): the shared
configuration, the registry of named loggers (insertion-ordered, as a
Python dict), and the process-wide default context. -/
structure NeuralLog (α : Type) where
  config : NeuralLogConfig
  loggers : List (String × AILogger α)
  global_context : Dict α

/-- `NeuralLog.get_logger`: reject an empty name; under the lock, if the
name is not registered, create a logger, give it the global context when
that is truthy, and register it; return the registered logger. -/
def NeuralLog.get_logger {α : Type} (cls : NeuralLog α) (log_name : String) :
    Except LogError (NeuralLog α × AILogger α) :=
  if log_name = "" then .error (.invalidArgument "Log name cannot be empty")
  else
    match dictLookup log_name cls.loggers with
    | some lg => .ok (cls, lg)
    | none =>
      let lg0 := AILogger.init α log_name cls.config
      let lg :=
        if cls.global_context.isEmpty then lg0
        else { lg0 with context := dictCopy cls.global_context }
      .ok ({ cls with loggers := cls.loggers ++ [(log_name, lg)] }, lg)

end Registry

section StoreModel

/-!
A tiny heap of dict objects, modelling Python object identity for the
defensive-copy behaviour of `AILogger.set_context`
(`self.context = context.copy()`): the caller passes a *reference* to a
dict, and the logger stores a freshly allocated copy of its contents.
-/

/-- A store of dict objects; an address is an index into `cells`. -/
structure Store (α : Type) where
  cells : List (Dict α)

/-- Contents of the dict at address `a`. -/
def Store.read {α : Type} (s : Store α) (a : Nat) : Dict α :=
  s.cells.getD a []

/-- In-place mutation of the dict at address `a` (what the caller can do to
the dict it passed in, after the call). -/
def Store.write {α : Type} (s : Store α) (a : Nat) (d : Dict α) : Store α :=
  ⟨s.cells.set a d⟩

/-- Allocate a fresh dict with contents `d`; returns the new store and the
fresh address. -/
def Store.alloc {α : Type} (s : Store α) (d : Dict α) : Store α × Nat :=
  (⟨s.cells ++ [d]⟩, s.cells.length)

/-- `AILogger.set_context` at the store level: `None` is rejected;
otherwise `context.copy()` allocates a fresh dict holding the argument's
current contents and the logger's context reference is repointed to it.
Returns the new store and the logger's new context address. -/
def set_context_ref {α : Type} (s : Store α) (context : Option Nat) :
    Except LogError (Store α × Nat) :=
  match context with
  | none => .error (.invalidArgument "Context cannot be None")
  | some a => .ok (s.alloc (s.read a))

end StoreModel

section Fixtures

/-- Left-biased choice on options, for stating lookup-level merge facts. -/
def optOr {α : Type} (a b : Option α) : Option α :=
  match a with
  | some v => some v
  | none => b

/-- A network oracle on which every `http_client.send` call succeeds. -/
def netOk : Net := fun _ => .ok ()

/-- A network oracle on which every `http_client.send` call raises. -/
def netDown : Net := fun _ => .error (.network "connection refused")

/-- Sample entries for concrete runs. -/
def entry1 : LogEntry Nat := ⟨.INFO, "one", [], none⟩

/-- Second sample entry. -/
def entry2 : LogEntry Nat := ⟨.INFO, "two", [], none⟩

/-- Third sample entry. -/
def entry3 : LogEntry Nat := ⟨.ERROR, "three", [], none⟩

/-- A logger in async batching mode (`batch_size = 2`) with three pending
entries. -/
def lgPending : AILogger Nat :=
  ⟨"app", { batch_size := 2 }, [], [entry1, entry2, entry3], []⟩

/-- A logger in async batching mode (`batch_size = 2`) with an empty
queue. -/
def lgBatching : AILogger Nat :=
  ⟨"app", { batch_size := 2 }, [], [], []⟩

/-- A logger in synchronous mode. -/
def lgSync : AILogger Nat :=
  ⟨"app", { async_enabled := false }, [], [], []⟩

/-- An async logger with batching disabled (`batch_size = 1`). -/
def lgNoBatch : AILogger Nat :=
  ⟨"app", { batch_size := 1 }, [], [], []⟩

/-- A one-cell store whose address 0 holds a sample dict. -/
def storeC9 : Store Nat := ⟨[[("k", 1)]]⟩

/-- A registry state with a non-empty process-wide global context and no
loggers yet. -/
def regStart : NeuralLog Nat := ⟨{}, [], [("g", 7)]⟩

/-- The logger `regStart.get_logger "app"` creates: it inherits the global
context. -/
def lgFromGlobal : AILogger Nat := ⟨"app", {}, [("g", 7)], [], []⟩

/-- The registry state after that creation. -/
def regAfter : NeuralLog Nat := ⟨{}, [("app", lgFromGlobal)], [("g", 7)]⟩

end Fixtures

/-! ## Theorems -/

/-- Key helper: if every attempt from index `retries` on fails, the loop
(entered with matching fuel) issues one request per remaining iteration,
sleeps the exponential backoffs, and raises the raw error of attempt
`maxRetries`. -/
theorem sendGo_all_fail (maxRetries retryBackoffMs : Nat)
    (attempt : Nat → NetResult) (h : ∀ i, attemptFails (attempt i)) :
    ∀ retries last, retries ≤ maxRetries →
      sendGo maxRetries retryBackoffMs attempt (maxRetries + 1 - retries) retries last =
        ⟨.error (.raw (attemptError (attempt maxRetries))),
         maxRetries + 1 - retries,
         (List.range' retries (maxRetries - retries)).map
           (fun i => retryBackoffMs * 2 ^ i)⟩ := by
  intro retries last hle
  induction' hd : (maxRetries - retries) with n ih generalizing retries last
  · have hr : retries = maxRetries := by omega
    rw [hr]
    have hfuel : maxRetries + 1 - maxRetries = 1 := by omega
    rw [hfuel]
    unfold sendGo
    have hf := h maxRetries
    unfold attemptFails at hf
    unfold attemptError
    cases htry : tryAttempt (attempt maxRetries) with
    | ok r => rw [htry] at hf; simp [Except.isOk, Except.toBool] at hf
    | error e =>
      have hnot : ¬ (maxRetries + 1 ≤ maxRetries) := by omega
      simp [hnot, raiseLast, List.range', Nat.sub_self]
  · have hfuel : maxRetries + 1 - retries = (maxRetries + 1 - (retries + 1)) + 1 := by
      omega
    rw [hfuel]
    unfold sendGo
    have hf := h retries
    unfold attemptFails at hf
    cases htry : tryAttempt (attempt retries) with
    | ok r => rw [htry] at hf; simp [Except.isOk, Except.toBool] at hf
    | error e =>
      have hle' : retries + 1 ≤ maxRetries := by omega
      simp only [hle', if_pos]
      rw [ih (retries + 1) (some e) hle' (by omega)]
      have hrange : List.range' retries (n + 1) =
          retries :: List.range' (retries + 1) n := by
        rw [List.range']
      rw [hrange]
      simp [afterRetry, Nat.add_sub_cancel]

/-- Key helper: if the attempts before index `k` fail and attempt `k`
returns `r` (with `k ≤ maxRetries`), the loop entered at `retries ≤ k`
issues attempts `retries..k` and returns `r`, having slept only the
backoffs for attempts `retries..k-1`. -/
theorem sendGo_succeeds (maxRetries retryBackoffMs : Nat)
    (attempt : Nat → NetResult) (k : Nat) (r : SendResult)
    (hfail : ∀ i < k, attemptFails (attempt i))
    (hk : tryAttempt (attempt k) = .ok r) (hkle : k ≤ maxRetries) :
    ∀ retries last, retries ≤ k →
      sendGo maxRetries retryBackoffMs attempt (maxRetries + 1 - retries) retries last =
        ⟨.ok r, k + 1 - retries,
         (List.range' retries (k - retries)).map
           (fun i => retryBackoffMs * 2 ^ i)⟩ := by
  intro retries last hle
  induction' hd : (k - retries) with n ih generalizing retries last
  · have hr : retries = k := by omega
    rw [hr]
    have hfuel : maxRetries + 1 - k = (maxRetries - k) + 1 := by omega
    rw [hfuel]
    unfold sendGo
    rw [hk]
    simp [SendOutcome.mk.injEq, List.range']
  · have hfuel : maxRetries + 1 - retries = (maxRetries + 1 - (retries + 1)) + 1 := by
      omega
    rw [hfuel]
    unfold sendGo
    have hf := hfail retries (by omega)
    unfold attemptFails at hf
    cases htry : tryAttempt (attempt retries) with
    | ok r' => rw [htry] at hf; simp [Except.isOk, Except.toBool] at hf
    | error e =>
      have hle' : retries + 1 ≤ maxRetries := by omega
      simp only [hle', if_pos]
      rw [ih (retries + 1) (some e) (by omega) (by omega)]
      have hrange : List.range' retries (n + 1) =
          retries :: List.range' (retries + 1) n := by
        rw [List.range']
      rw [hrange]
      simp only [List.map_cons, afterRetry, Nat.add_sub_cancel,
        SendOutcome.mk.injEq, true_and, and_true]
      omega

/-- In any run the loop issues at least one request (the fuel is positive
on entry). -/
theorem sendGo_requests_pos (maxRetries retryBackoffMs : Nat)
    (attempt : Nat → NetResult) (fuel retries : Nat) (last : Option AttemptErr)
    (hfuel : 1 ≤ fuel) :
    1 ≤ (sendGo maxRetries retryBackoffMs attempt fuel retries last).requests := by
  match fuel, hfuel with
  | f + 1, _ =>
    unfold sendGo
    cases tryAttempt (attempt retries) with
    | ok r => simp
    | error e =>
      by_cases hle : retries + 1 ≤ maxRetries
      · simp [hle, afterRetry]
      · simp [hle]

/-- In any run, the backoff trace is exactly one entry per retried attempt:
`retry_backoff_ms * 2 ^ i` for the `i`-th (0-based) attempt that failed and
was retried, in order. -/
theorem sendGo_backoffs (maxRetries retryBackoffMs : Nat)
    (attempt : Nat → NetResult) :
    ∀ fuel retries last, fuel = maxRetries + 1 - retries → retries ≤ maxRetries →
      (sendGo maxRetries retryBackoffMs attempt fuel retries last).backoffs =
        (List.range' retries
          ((sendGo maxRetries retryBackoffMs attempt fuel retries last).requests - 1)).map
          (fun i => retryBackoffMs * 2 ^ i) := by
  intro fuel
  induction' fuel with f ih
  · intro retries last hfuel hle
    omega
  · intro retries last hfuel hle
    unfold sendGo
    cases tryAttempt (attempt retries) with
    | ok r => simp [List.range']
    | error e =>
      by_cases hle' : retries + 1 ≤ maxRetries
      · simp only [hle', if_pos, afterRetry]
        rw [ih (retries + 1) (some e) (by omega) (by omega)]
        have hpos : 1 ≤ (sendGo maxRetries retryBackoffMs attempt f (retries + 1)
            (some e)).requests :=
          sendGo_requests_pos maxRetries retryBackoffMs attempt f (retries + 1)
            (some e) (by omega)
        have hreq : (sendGo maxRetries retryBackoffMs attempt f (retries + 1)
            (some e)).requests + 1 - 1 =
            ((sendGo maxRetries retryBackoffMs attempt f (retries + 1)
              (some e)).requests - 1) + 1 := by omega
        rw [hreq]
        have hrange : List.range' retries
            (((sendGo maxRetries retryBackoffMs attempt f (retries + 1)
              (some e)).requests - 1) + 1) =
            retries :: List.range' (retries + 1)
              ((sendGo maxRetries retryBackoffMs attempt f (retries + 1)
                (some e)).requests - 1) := by
          rw [List.range']
        rw [hrange]
        simp [Nat.add_sub_cancel]
      · simp [hle', List.range']

/-- C1: a transport whose attempts all fail issues exactly
`max_retries + 1` requests and surfaces the failure of the last attempt; a
transport failing only on the first attempt issues exactly 2 requests and
succeeds. -/
theorem http_send_retry_counts (maxRetries retryBackoffMs : Nat)
    (attemptA attemptB : Nat → NetResult) (r : SendResult)
    (hA : ∀ i, attemptFails (attemptA i))
    (hB0 : attemptFails (attemptB 0))
    (hB1 : tryAttempt (attemptB 1) = .ok r)
    (hmr : 1 ≤ maxRetries) :
    ((httpSend maxRetries retryBackoffMs attemptA).requests = maxRetries + 1 ∧
     (httpSend maxRetries retryBackoffMs attemptA).result =
       .error (.raw (attemptError (attemptA maxRetries)))) ∧
    ((httpSend maxRetries retryBackoffMs attemptB).requests = 2 ∧
     (httpSend maxRetries retryBackoffMs attemptB).result = .ok r) := by
  constructor
  · have h := sendGo_all_fail maxRetries retryBackoffMs attemptA hA 0 none
      (Nat.zero_le _)
    unfold httpSend
    rw [Nat.sub_zero] at h
    rw [h]
    exact ⟨rfl, rfl⟩
  · have hfail : ∀ i < 1, attemptFails (attemptB i) := by
      intro i hi
      have : i = 0 := by omega
      rw [this]; exact hB0
    have h := sendGo_succeeds maxRetries retryBackoffMs attemptB 1 r hfail hB1
      hmr 0 none (Nat.zero_le _)
    unfold httpSend
    rw [Nat.sub_zero] at h
    rw [h]
    exact ⟨rfl, rfl⟩

/-- C1 witness: with `max_retries = 2`, a constantly failing transport is
invoked 3 times; one that succeeds on the 2nd attempt is invoked twice. -/
theorem http_send_retry_counts_witness :
    (httpSend 2 1000 (fun _ => .netErr "down")).requests = 3 ∧
    (httpSend 2 1000
      (fun i => if i = 0 then .netErr "down" else .resp 200 "ok")).requests = 2 := by
  have h := http_send_retry_counts 2 1000 (fun _ => .netErr "down")
    (fun i => if i = 0 then .netErr "down" else .resp 200 "ok") (.json "ok")
    (fun _ => rfl) (by decide) rfl (by decide)
  exact ⟨h.1.1, h.2.1⟩

/-- C6: in every run of `send`, the delay slept before attempt `n+1`
(after 1-based attempt `n` failed with retries remaining) is
`retry_backoff_ms * 2 ^ (n - 1)`: the backoff trace is exactly
`[b * 2^0, b * 2^1, ...]`, one entry per retried attempt. -/
theorem http_send_backoff_schedule (maxRetries retryBackoffMs : Nat)
    (attempt : Nat → NetResult) :
    (httpSend maxRetries retryBackoffMs attempt).backoffs =
      (List.range'
        0 ((httpSend maxRetries retryBackoffMs attempt).requests - 1)).map
        (fun i => retryBackoffMs * 2 ^ i) :=
  sendGo_backoffs maxRetries retryBackoffMs attempt (maxRetries + 1) 0 none
    (by omega) (Nat.zero_le _)
/-- C7 counterexample: with `max_retries = 1` and both attempts failing,
`send` raises the raw last `RequestException` itself, not a `DeliveryFailed`
wrapper — no wrapping error type exists in the code. -/
theorem http_send_raises_raw_counterexample :
    (httpSend 1 1000
      (fun i => .netErr (if i = 0 then "first" else "second"))).result =
      .error (.raw (.network "second")) ∧
    (httpSend 1 1000
      (fun i => .netErr (if i = 0 then "first" else "second"))).failedWrapped =
      false := by
  constructor <;> rfl

/-- C7 amended: after exhausting retries, `send` fails by re-raising the
last underlying failure itself (`raise last_exception`), with no wrapper. -/
theorem http_send_raises_last_raw (maxRetries retryBackoffMs : Nat)
    (attempt : Nat → NetResult) (h : ∀ i, attemptFails (attempt i)) :
    (httpSend maxRetries retryBackoffMs attempt).result =
      .error (.raw (attemptError (attempt maxRetries))) := by
  have hh := sendGo_all_fail maxRetries retryBackoffMs attempt h 0 none
    (Nat.zero_le _)
  unfold httpSend
  rw [Nat.sub_zero] at hh
  rw [hh]

/-- C7 amended witness: concrete run of the raw-propagation theorem. -/
theorem http_send_raises_last_raw_witness :
    (httpSend 1 1000
      (fun i => .netErr (if i = 0 then "a" else "b"))).result =
      .error (.raw (.network "b")) := by
  have h := http_send_raises_last_raw 1 1000
    (fun i => .netErr (if i = 0 then "a" else "b")) (fun _ => rfl)
  rw [h]
  rfl

/-- The try/except around a send never changes the state. -/
theorem swallowing_eq {α : Type} (r : Except AttemptErr Unit) (st : α) :
    swallowing r st = st := by
  cases r <;> rfl

/-- Lookup distributes over append, preferring the left list. -/
theorem dictLookup_append {α : Type} (k : String) (d1 d2 : Dict α) :
    dictLookup k (d1 ++ d2) = optOr (dictLookup k d1) (dictLookup k d2) := by
  induction d1 with
  | nil => simp [dictLookup, optOr]
  | cons p rest ih =>
    obtain ⟨x, y⟩ := p
    by_cases h : k = x <;> simp [dictLookup, h, ih, optOr]

/-- A key absent from a dict looks up to `none`. -/
theorem dictLookup_eq_none {α : Type} (k : String) (d : Dict α)
    (h : k ∉ dictKeys d) : dictLookup k d = none := by
  induction d with
  | nil => rfl
  | cons p rest ih =>
    obtain ⟨x, y⟩ := p
    simp only [dictKeys, List.map_cons, List.mem_cons, not_or] at h
    simp [dictLookup, h.1, ih h.2]

/-- Lookup after a Python dict single-key set: the set key yields the new
value, every other key is untouched. -/
theorem dictLookup_dictInsert {α : Type} (d : Dict α) (k k' : String) (v : α) :
    dictLookup k (dictInsert d k' v) =
      if k = k' then some v else dictLookup k d := by
  induction d with
  | nil => rfl
  | cons p rest ih =>
    obtain ⟨x, y⟩ := p
    rw [show dictInsert ((x, y) :: rest) k' v =
      if x = k' then (k', v) :: rest else (x, y) :: dictInsert rest k' v from rfl]
    by_cases hx : x = k'
    · rw [if_pos hx]
      subst hx
      by_cases hk : k = x <;> simp [dictLookup, hk]
    · rw [if_neg hx]
      by_cases hk : k = x
      · have hkk : ¬ k = k' := fun hh => hx (hk.symm.trans hh)
        simp [dictLookup, hk, hkk, hx]
      · simp [dictLookup, hk, ih]

/-- Lookup after `ctx.update(d)` (for `d` with unique keys): keys of `d`
win, all others fall back to `ctx`. -/
theorem dictLookup_dictUpdate {α : Type} (d : Dict α)
    (hd : (dictKeys d).Nodup) :
    ∀ (ctx : Dict α) (k : String),
      dictLookup k (dictUpdate ctx d) =
        optOr (dictLookup k d) (dictLookup k ctx) := by
  induction d with
  | nil => intro ctx k; rfl
  | cons p rest ih =>
    obtain ⟨k', v⟩ := p
    intro ctx k
    have hcons : k' ∉ dictKeys rest ∧ (dictKeys rest).Nodup := by
      rw [show dictKeys ((k', v) :: rest) = k' :: dictKeys rest from rfl,
        List.nodup_cons] at hd
      exact hd
    have step : dictUpdate ctx ((k', v) :: rest) =
        dictUpdate (dictInsert ctx k' v) rest := rfl
    rw [step, ih hcons.2 (dictInsert ctx k' v) k, dictLookup_dictInsert]
    by_cases hk : k = k'
    · subst hk
      rw [dictLookup_eq_none k rest hcons.1]
      simp [dictLookup, optOr]
    · simp [dictLookup, hk, optOr]

/-- Setting a fresh key appends it. -/
theorem dictInsert_eq_append {α : Type} (d : Dict α) (k : String) (v : α)
    (h : k ∉ dictKeys d) : dictInsert d k v = d ++ [(k, v)] := by
  induction d with
  | nil => rfl
  | cons p rest ih =>
    obtain ⟨x, y⟩ := p
    simp only [dictKeys, List.map_cons, List.mem_cons, not_or] at h
    unfold dictInsert
    rw [if_neg (fun hh => h.1 hh.symm)]
    rw [ih h.2]
    rfl

/-- `acc.update(d)` for `d` with unique keys all fresh to `acc` is plain
concatenation. -/
theorem dictUpdate_eq_append {α : Type} (d : Dict α) :
    ∀ acc : Dict α, (dictKeys d).Nodup →
      (∀ k ∈ dictKeys d, k ∉ dictKeys acc) →
      dictUpdate acc d = acc ++ d := by
  induction d with
  | nil => intro acc _ _; simp [dictUpdate]
  | cons p rest ih =>
    obtain ⟨k', v⟩ := p
    intro acc hnd hdisj
    have hcons : k' ∉ dictKeys rest ∧ (dictKeys rest).Nodup := by
      rw [show dictKeys ((k', v) :: rest) = k' :: dictKeys rest from rfl,
        List.nodup_cons] at hnd
      exact hnd
    have hk' : k' ∉ dictKeys acc :=
      hdisj k' (by
        rw [show dictKeys ((k', v) :: rest) = k' :: dictKeys rest from rfl]
        exact List.mem_cons_self k' _)
    have step : dictUpdate acc ((k', v) :: rest) =
        dictUpdate (dictInsert acc k' v) rest := rfl
    rw [step, dictInsert_eq_append acc k' v hk']
    rw [ih (acc ++ [(k', v)]) hcons.2 ?_]
    · simp
    · intro k hk
      have hmem : k ∈ dictKeys ((k', v) :: rest) := by
        rw [show dictKeys ((k', v) :: rest) = k' :: dictKeys rest from rfl]
        exact List.mem_cons_of_mem k' hk
      have h1 : k ∉ dictKeys acc := hdisj k hmem
      have h2 : ¬ k = k' := fun hh => hcons.1 (hh ▸ hk)
      rw [show dictKeys (acc ++ [(k', v)]) = dictKeys acc ++ [k'] by
        simp [dictKeys]]
      simp only [List.mem_append, List.mem_singleton, not_or]
      exact ⟨h1, h2⟩

/-- `dict().update(d)` rebuilds `d` when its keys are unique. -/
theorem dictUpdate_nil {α : Type} (d : Dict α) (hd : (dictKeys d).Nodup) :
    dictUpdate [] d = d := by
  rw [dictUpdate_eq_append d [] hd (by simp [dictKeys])]
  rfl

/-- After the first half of the merge, lookups agree with the instance
context (for a context with unique keys). -/
theorem mergeBase_lookup {α : Type} (ctx : Dict α)
    (hc : (dictKeys ctx).Nodup) (k : String) :
    dictLookup k (mergeBase ctx) = dictLookup k ctx := by
  unfold mergeBase
  by_cases h : ctx.isEmpty = true
  · rw [if_pos h, List.isEmpty_iff.mp h]
  · rw [if_neg h, dictUpdate_nil ctx hc]

/-- With no caller data, the merged event data is exactly the instance
context. -/
theorem mergeData_none {α : Type} (ctx : Dict α)
    (hc : (dictKeys ctx).Nodup) : mergeData ctx none = ctx := by
  rw [show mergeData ctx none = mergeBase ctx from rfl]
  unfold mergeBase
  by_cases h : ctx.isEmpty = true
  · rw [if_pos h]
    exact (List.isEmpty_iff.mp h).symm
  · rw [if_neg h]
    exact dictUpdate_nil ctx hc

/-- Lookup in the merged event data: caller-supplied keys win, all others
fall back to the instance context. -/
theorem mergeData_lookup {α : Type} (ctx d : Dict α)
    (hc : (dictKeys ctx).Nodup) (hd : (dictKeys d).Nodup) (k : String) :
    dictLookup k (mergeData ctx (some d)) =
      optOr (dictLookup k d) (dictLookup k ctx) := by
  rw [show mergeData ctx (some d) =
    (if d.isEmpty then mergeBase ctx else dictUpdate (mergeBase ctx) d) from rfl]
  by_cases hde : d.isEmpty = true
  · rw [if_pos hde]
    rw [List.isEmpty_iff.mp hde]
    rw [show optOr (dictLookup k ([] : Dict α)) (dictLookup k ctx) =
      dictLookup k ctx from rfl]
    exact mergeBase_lookup ctx hc k
  · rw [if_neg hde]
    rw [dictLookup_dictUpdate d hd _ k, mergeBase_lookup ctx hc k]

/-- C8: the event data built by `log()` is the instance context merged
under the caller-supplied data, caller keys winning on collision; the
concrete spec example holds; with no caller data the event data equals the
instance context; with neither it is empty. -/
theorem log_data_merge (α : Type) (ctx d : Dict α)
    (hc : (dictKeys ctx).Nodup) (hd : (dictKeys d).Nodup) (k : String) :
    (mergeData [("a", (1 : Nat))] (some [("a", 2), ("b", 3)]) =
      [("a", 2), ("b", 3)]) ∧
    (dictLookup k (mergeData ctx (some d)) =
      optOr (dictLookup k d) (dictLookup k ctx)) ∧
    (mergeData ctx none = ctx) ∧
    (mergeData ([] : Dict α) none = []) :=
  ⟨by decide, mergeData_lookup ctx d hc hd k, mergeData_none ctx hc, rfl⟩

/-- C8 witness: the theorem run on the spec's own example, at key "a" and
at key "b". -/
theorem log_data_merge_witness :
    (mergeData [("a", (1 : Nat))] (some [("a", 2), ("b", 3)]) =
      [("a", 2), ("b", 3)]) ∧
    dictLookup "a" (mergeData [("a", (1 : Nat))] (some [("a", 2), ("b", 3)])) =
      optOr (dictLookup "a" [("a", (2 : Nat)), ("b", 3)])
        (dictLookup "a" [("a", (1 : Nat))]) := by
  have h := log_data_merge Nat [("a", (1 : Nat))] [("a", 2), ("b", 3)]
    (by decide) (by decide) "a"
  exact ⟨h.1, h.2.1⟩

/-- C2: `log()` (and each level wrapper, which merely fixes the level)
raises InvalidArgument exactly when the message is empty; for any non-empty
message it returns normally for every network oracle `net` — in particular
when every delivery attempt fails, since `_send_log_entry` and
`_send_batch` swallow all exceptions. -/
theorem log_raises_iff_empty_message {α : Type} (self : AILogger α)
    (net : Net) (level : LogLevel) (message : String) (data : Option (Dict α))
    (exc : Option ExceptionInfo) :
    (self.log net level "" data exc =
      .error (.invalidArgument "Message cannot be empty")) ∧
    ((self.log net level message data exc).isOk = true ↔ message ≠ "") ∧
    (self.debug net message data exc = self.log net .DEBUG message data exc) ∧
    (self.info net message data exc = self.log net .INFO message data exc) ∧
    (self.warning net message data exc =
      self.log net .WARNING message data exc) ∧
    (self.error net message data exc = self.log net .ERROR message data exc) ∧
    (self.fatal net message data exc = self.log net .FATAL message data exc) := by
  refine ⟨rfl, ?_, rfl, rfl, rfl, rfl, rfl⟩
  unfold AILogger.log
  by_cases h : message = ""
  · subst h
    simp [Except.isOk, Except.toBool]
  · rw [if_neg h]
    simp only [ne_eq, h, not_false_iff, iff_true]
    by_cases ha : self.config.async_enabled = true
    · rw [if_pos ha]
      by_cases hb : 1 < self.config.batch_size
      · rw [if_pos hb]; rfl
      · rw [if_neg hb]; rfl
    · rw [if_neg ha]; rfl

/-- C5: routing of a freshly built entry by `log()`: synchronous mode and
async-with-`batch_size ≤ 1` send the single entry immediately (one POST to
the single-entry URL), async with `batch_size > 1` enqueues it instead. -/
theorem log_routing {α : Type} (self : AILogger α) (net : Net)
    (level : LogLevel) (message : String) (data : Option (Dict α))
    (exc : Option ExceptionInfo) (h : message ≠ "") :
    (self.config.async_enabled = false →
      self.log net level message data exc =
        .ok (self.send_log_entry net
          ⟨level, message, mergeData self.context data, exc⟩)) ∧
    (self.config.async_enabled = true → self.config.batch_size ≤ 1 →
      self.log net level message data exc =
        .ok (self.send_log_entry net
          ⟨level, message, mergeData self.context data, exc⟩)) ∧
    (self.config.async_enabled = true → 1 < self.config.batch_size →
      self.log net level message data exc =
        .ok (self.enqueue_log_entry net
          ⟨level, message, mergeData self.context data, exc⟩)) ∧
    ((self.send_log_entry net
        ⟨level, message, mergeData self.context data, exc⟩).sends =
      self.sends ++ [⟨"POST", self.get_log_url,
        .single ⟨level, message, mergeData self.context data, exc⟩⟩]) := by
  refine ⟨?_, ?_, ?_, ?_⟩
  · intro ha
    unfold AILogger.log
    rw [if_neg h, if_neg (by rw [ha]; exact Bool.false_ne_true)]
  · intro ha hb
    unfold AILogger.log
    rw [if_neg h, if_pos ha, if_neg (Nat.not_lt.mpr hb)]
  · intro ha hb
    unfold AILogger.log
    rw [if_neg h, if_pos ha, if_pos hb]
  · unfold AILogger.send_log_entry
    rw [swallowing_eq]

/-- C5 witness: the three routing branches on concrete loggers. -/
theorem log_routing_witness :
    (lgSync.log netOk .INFO "m" none none =
      .ok (lgSync.send_log_entry netOk
        ⟨.INFO, "m", mergeData lgSync.context none, none⟩)) ∧
    (lgNoBatch.log netOk .INFO "m" none none =
      .ok (lgNoBatch.send_log_entry netOk
        ⟨.INFO, "m", mergeData lgNoBatch.context none, none⟩)) ∧
    (lgBatching.log netOk .INFO "m" none none =
      .ok (lgBatching.enqueue_log_entry netOk
        ⟨.INFO, "m", mergeData lgBatching.context none, none⟩)) := by
  have h1 := log_routing lgSync netOk .INFO "m" none none (by decide)
  have h2 := log_routing lgNoBatch netOk .INFO "m" none none (by decide)
  have h3 := log_routing lgBatching netOk .INFO "m" none none (by decide)
  exact ⟨h1.1 rfl, h2.2.1 rfl (by decide), h3.2.2.1 rfl (by decide)⟩

/-- C3: the batcher's flush (`_send_batch`, what `flush()` runs in batching
mode) is a no-op on an empty queue; on a non-empty queue (with a positive
batch size) it removes exactly `min(batch_size, pending)` oldest events and
issues one batch POST carrying them in their original enqueue order — a
partial batch is sent in full. -/
theorem flush_drains_min_batch {α : Type} (self : AILogger α) (net : Net) :
    (self.batch_queue = [] → self.send_batch net = self ∧ self.flush net = self) ∧
    (self.batch_queue ≠ [] → 1 ≤ self.config.batch_size →
      self.send_batch net =
        { self with
          batch_queue := self.batch_queue.drop self.config.batch_size,
          sends := self.sends ++ [⟨"POST", self.get_batch_url,
            .batch (self.batch_queue.take self.config.batch_size)⟩] } ∧
      (self.batch_queue.take self.config.batch_size).length =
        min self.config.batch_size self.batch_queue.length) ∧
    (self.config.async_enabled = true → 1 < self.config.batch_size →
      self.flush net = self.send_batch net) := by
  refine ⟨?_, ?_, ?_⟩
  · intro hq
    have hsb : self.send_batch net = self := by
      unfold AILogger.send_batch
      rw [if_pos (by rw [hq]; rfl)]
    refine ⟨hsb, ?_⟩
    unfold AILogger.flush
    by_cases hc : self.config.async_enabled = true ∧ 1 < self.config.batch_size
    · rw [if_pos hc]; exact hsb
    · rw [if_neg hc]
  · intro hq hbs
    have hne : ¬ self.batch_queue.isEmpty = true :=
      fun hh => hq (List.isEmpty_iff.mp hh)
    have htake : ¬ (self.batch_queue.take self.config.batch_size).isEmpty = true := by
      intro hh
      rcases List.take_eq_nil_iff.mp (List.isEmpty_iff.mp hh) with h0 | h0
      · omega
      · exact hq h0
    unfold AILogger.send_batch
    rw [if_neg hne, if_neg htake, swallowing_eq]
    exact ⟨rfl, List.length_take _ _⟩
  · intro ha hb
    unfold AILogger.flush
    rw [if_pos ⟨ha, hb⟩]

/-- C3 witness: empty-queue no-op, and a drain of 3 pending entries with
`batch_size = 2` leaving the third queued. -/
theorem flush_drains_min_batch_witness :
    ((AILogger.init Nat "app" {}).send_batch netOk = AILogger.init Nat "app" {}) ∧
    (lgPending.send_batch netOk =
      { lgPending with
        batch_queue := lgPending.batch_queue.drop 2,
        sends := lgPending.sends ++ [⟨"POST", lgPending.get_batch_url,
          .batch (lgPending.batch_queue.take 2)⟩] }) ∧
    (lgPending.batch_queue.take 2).length = min 2 lgPending.batch_queue.length := by
  have h1 := (flush_drains_min_batch (AILogger.init Nat "app" {}) netOk).1 rfl
  have h2 := (flush_drains_min_batch lgPending netOk).2.1
    (fun hh => List.noConfusion hh) (by decide)
  exact ⟨h1.1, h2.1, h2.2⟩

/-- `_enqueue_log_entry` unfolded: append, then drain iff the new size has
reached `batch_size`. -/
theorem enqueue_eq_if {α : Type} (self : AILogger α) (net : Net)
    (e : LogEntry α) :
    self.enqueue_log_entry net e =
      if self.config.batch_size ≤ (self.batch_queue ++ [e]).length
      then AILogger.send_batch { self with batch_queue := self.batch_queue ++ [e] } net
      else { self with batch_queue := self.batch_queue ++ [e] } := rfl

/-- C4: an enqueue that leaves the queue below `batch_size` only appends
(no send); an enqueue that reaches `batch_size` immediately drains a batch;
with `batch_size = 2`, two enqueues from an empty queue produce exactly one
batch POST carrying both entries in order, with nothing left queued. -/
theorem enqueue_autoflush {α : Type} (self : AILogger α) (net : Net)
    (e e1 e2 : LogEntry α) :
    (self.batch_queue.length + 1 < self.config.batch_size →
      self.enqueue_log_entry net e =
        { self with batch_queue := self.batch_queue ++ [e] }) ∧
    (self.config.batch_size ≤ self.batch_queue.length + 1 →
      self.enqueue_log_entry net e =
        AILogger.send_batch { self with batch_queue := self.batch_queue ++ [e] } net) ∧
    (self.config.batch_size = 2 → self.batch_queue = [] →
      (self.enqueue_log_entry net e1).enqueue_log_entry net e2 =
        { self with
          batch_queue := ([] : List (LogEntry α)),
          sends := self.sends ++ [⟨"POST", self.get_batch_url,
            .batch [e1, e2]⟩] }) := by
  refine ⟨?_, ?_, ?_⟩
  · intro hlt
    rw [enqueue_eq_if,
      if_neg (by simp only [List.length_append, List.length_singleton]; omega)]
  · intro hge
    rw [enqueue_eq_if,
      if_pos (by simp only [List.length_append, List.length_singleton]; omega)]
  · intro h2 hq
    have s1 : self.enqueue_log_entry net e1 =
        { self with batch_queue := self.batch_queue ++ [e1] } := by
      rw [enqueue_eq_if, if_neg (by rw [hq, h2]; simp)]
    rw [s1, enqueue_eq_if, if_pos (by simp [h2, hq])]
    unfold AILogger.send_batch
    rw [if_neg (by simp [hq])]
    rw [if_neg (by simp [hq, h2])]
    rw [swallowing_eq]
    simp [hq, h2, AILogger.get_batch_url]

/-- C4 witness: one below-threshold enqueue, and the two-enqueue
auto-flush scenario at `batch_size = 2`. -/
theorem enqueue_autoflush_witness :
    (lgBatching.enqueue_log_entry netOk entry1 =
      { lgBatching with batch_queue := lgBatching.batch_queue ++ [entry1] }) ∧
    ((lgBatching.enqueue_log_entry netOk entry1).enqueue_log_entry netOk entry2 =
      { lgBatching with
        batch_queue := ([] : List (LogEntry Nat)),
        sends := lgBatching.sends ++ [⟨"POST", lgBatching.get_batch_url,
          .batch [entry1, entry2]⟩] }) := by
  have h := enqueue_autoflush lgBatching netOk entry1 entry1 entry2
  exact ⟨h.1 (by decide), h.2.2 rfl rfl⟩

/-- `getD` of a freshly appended element at the old length. -/
theorem listGetD_append_singleton {β : Type} (l : List β) (v dflt : β) :
    (l ++ [v]).getD l.length dflt = v := by
  induction l with
  | nil => rfl
  | cons x xs ih => exact ih

/-- Mutating any earlier cell does not disturb `getD` of the appended
element. -/
theorem listGetD_set_append {β : Type} (l : List β) (a : Nat) (v d' dflt : β)
    (ha : a < l.length) :
    ((l ++ [v]).set a d').getD l.length dflt = v := by
  rw [List.set_append, if_pos ha]
  rw [show l.length = (l.set a d').length from (List.length_set l a d').symm]
  exact listGetD_append_singleton _ v dflt

/-- C9: `set_context` fails iff the argument is absent (`None`); otherwise
it stores a defensive copy: the logger's stored contents equal the
argument's contents at call time, and mutating the caller's dict afterwards
(a `write` at its address) leaves the stored contents unchanged. -/
theorem set_context_defensive_copy (α : Type) (s : Store α) (a : Nat)
    (ha : a < s.cells.length) (d' : Dict α) (self : AILogger α) (c : Dict α) :
    (set_context_ref s (none : Option Nat) =
       .error (.invalidArgument "Context cannot be None") ∧
     self.set_context none = .error (.invalidArgument "Context cannot be None")) ∧
    (self.set_context (some c) = .ok { self with context := c }) ∧
    (set_context_ref s (some a) = .ok (s.alloc (s.read a))) ∧
    ((s.alloc (s.read a)).1.read (s.alloc (s.read a)).2 = s.read a) ∧
    (((s.alloc (s.read a)).1.write a d').read (s.alloc (s.read a)).2 =
      s.read a) := by
  refine ⟨⟨rfl, rfl⟩, rfl, rfl, ?_, ?_⟩
  · exact listGetD_append_singleton s.cells (s.read a) []
  · exact listGetD_set_append s.cells a (s.read a) d' [] ha

/-- C9 witness: a concrete store; after `set_context`, overwriting the
caller's dict does not affect what the logger reads. -/
theorem set_context_defensive_copy_witness :
    (lgBatching.set_context (some [("c", 5)]) =
      .ok { lgBatching with context := [("c", 5)] }) ∧
    (((storeC9.alloc (storeC9.read 0)).1.write 0 [("k", 99)]).read
        (storeC9.alloc (storeC9.read 0)).2 = storeC9.read 0) := by
  have h := set_context_defensive_copy Nat storeC9 0 (by decide) [("k", 99)]
    lgBatching [("c", 5)]
  exact ⟨h.2.1, h.2.2.2.2⟩

/-- C10: `get_logger` with an empty name raises InvalidArgument; a second
call with the same name returns the same registry state and the same
logger (nothing is created or changed); a logger created while the global
context is non-empty carries that global context as its instance
context. -/
theorem get_logger_registry (α : Type) (cls cls2 : NeuralLog α)
    (lg : AILogger α) (name : String) (hname : name ≠ "")
    (hcall : cls.get_logger name = .ok (cls2, lg)) :
    (cls.get_logger "" = .error (.invalidArgument "Log name cannot be empty")) ∧
    (cls2.get_logger name = .ok (cls2, lg)) ∧
    (dictLookup name cls.loggers = none → cls.global_context.isEmpty = false →
      lg.context = cls.global_context ∧
      cls2 = { cls with loggers := cls.loggers ++ [(name, lg)] }) := by
  unfold NeuralLog.get_logger at hcall
  rw [if_neg hname] at hcall
  refine ⟨rfl, ?_, ?_⟩
  · cases hlk : dictLookup name cls.loggers with
    | some lg0 =>
      rw [hlk] at hcall
      have hcall' : (Except.ok (cls, lg0) : Except LogError (NeuralLog α × AILogger α)) =
          .ok (cls2, lg) := hcall
      have hpair : (cls, lg0) = (cls2, lg) := by
        injection hcall'
      obtain ⟨h1, h2⟩ := Prod.mk.injEq .. |>.mp hpair
      unfold NeuralLog.get_logger
      rw [if_neg hname, ← h1, hlk, h2]
    | none =>
      rw [hlk] at hcall
      have hcall' :
          (Except.ok
            ({ cls with loggers := cls.loggers ++
                [(name, if cls.global_context.isEmpty then AILogger.init α name cls.config
                  else { AILogger.init α name cls.config with
                    context := dictCopy cls.global_context })] },
             if cls.global_context.isEmpty then AILogger.init α name cls.config
              else { AILogger.init α name cls.config with
                context := dictCopy cls.global_context }) :
            Except LogError (NeuralLog α × AILogger α)) = .ok (cls2, lg) := hcall
      have hpair := Except.ok.inj hcall'
      obtain ⟨h1, h2⟩ := Prod.mk.injEq .. |>.mp hpair
      unfold NeuralLog.get_logger
      rw [if_neg hname, ← h1]
      have hlk2 : dictLookup name (cls.loggers ++
          [(name, if cls.global_context.isEmpty then AILogger.init α name cls.config
            else { AILogger.init α name cls.config with
              context := dictCopy cls.global_context })]) =
          some (if cls.global_context.isEmpty then AILogger.init α name cls.config
            else { AILogger.init α name cls.config with
              context := dictCopy cls.global_context }) := by
        rw [dictLookup_append, hlk]
        simp [dictLookup, optOr]
      rw [hlk2, h2]
  · intro hlk hgc
    rw [hlk] at hcall
    have hcall' :
        (Except.ok
          ({ cls with loggers := cls.loggers ++
              [(name, if cls.global_context.isEmpty then AILogger.init α name cls.config
                else { AILogger.init α name cls.config with
                  context := dictCopy cls.global_context })] },
           if cls.global_context.isEmpty then AILogger.init α name cls.config
            else { AILogger.init α name cls.config with
              context := dictCopy cls.global_context }) :
          Except LogError (NeuralLog α × AILogger α)) = .ok (cls2, lg) := hcall
    have hpair := Except.ok.inj hcall'
    obtain ⟨h1, h2⟩ := Prod.mk.injEq .. |>.mp hpair
    have hif : (if cls.global_context.isEmpty then AILogger.init α name cls.config
        else { AILogger.init α name cls.config with
          context := dictCopy cls.global_context }) =
        { AILogger.init α name cls.config with
          context := dictCopy cls.global_context } := by
      rw [if_neg (by rw [hgc]; exact Bool.false_ne_true)]
    constructor
    · rw [← h2, hif]
      rfl
    · rw [← h2, ← h1]

/-- C10 witness: a concrete registry with a non-empty global context —
creation, idempotent second lookup, and context inheritance. -/
theorem get_logger_registry_witness :
    (regStart.get_logger "" = .error (.invalidArgument "Log name cannot be empty")) ∧
    (regAfter.get_logger "app" = .ok (regAfter, lgFromGlobal)) ∧
    (lgFromGlobal.context = regStart.global_context) := by
  have h := get_logger_registry Nat regStart regAfter lgFromGlobal "app"
    (by decide) rfl
  exact ⟨h.1, h.2.1, (h.2.2 rfl rfl).1⟩

end NeuralLogSDK
